import Mathlib

/-!
Verification development for the "My Life Diary" voice-journaling web
client.  The definitions below are a shallow embedding of the core logic
of `src/src/App.jsx`: the grouping/filtering engine, the search-driven
expansion-state update, the note CRUD operations against the document
store, the recording-start guard, and the color utilities.  Timestamps
are reduced to the local calendar date, which is the only part of a
`Date` the grouping logic reads (`getFullYear`, `getMonth`, `getDate`,
and `toDateString` comparisons).
-/

set_option maxHeartbeats 1000000
set_option maxRecDepth 10000

namespace LifeDiary

/-- Local calendar date of a timestamp, as read by the app through
`getFullYear()`, `getMonth()` (0-11) and `getDate()` (1-31).  Two
timestamps satisfy `toDateString()` equality exactly when these three
fields agree. -/
structure DiaryDate where
  year : Int
  month : Nat
  day : Nat
deriving DecidableEq

/-- Result of `date.toLocaleString('default', { month: 'long' })` in the
default English locale, indexed by `getMonth()`. -/
def monthLong (m : Nat) : String :=
  ["January", "February", "March", "April", "May", "June", "July",
   "August", "September", "October", "November", "December"].getD m ""

/-- A note document as delivered by the store snapshot: Firestore id,
`text`, and an optional `timestamp` (absent for not-yet-materialized or
malformed records). -/
structure Note where
  id : String
  text : String
  timestamp : Option DiaryDate
deriving DecidableEq

/-- JavaScript `s.trim()`: strip leading and trailing whitespace. -/
def jsTrim (s : String) : String :=
  String.mk (((s.data.dropWhile Char.isWhitespace).reverse.dropWhile Char.isWhitespace).reverse)

/-- JavaScript `s.toLowerCase()` on the characters of the string. -/
def jsToLower (s : String) : String :=
  String.mk (s.data.map Char.toLower)

/-- Containment of one character list in another, tried at every suffix. -/
def listInfix (needle hay : List Char) : Bool :=
  match hay with
  | [] => needle.isEmpty
  | _ :: rest => needle.isPrefixOf hay || listInfix needle rest

/-- JavaScript `hay.includes(needle)` (substring containment). -/
def strIncludes (hay needle : String) : Bool :=
  listInfix needle.data hay.data

/-- The search filter `n.text.toLowerCase().includes(searchTerm.toLowerCase())`. -/
def matchesSearch (term : String) (n : Note) : Bool :=
  strIncludes (jsToLower n.text) (jsToLower term)

/-- Embeds `notes.filter(n => n.text.toLowerCase().includes(searchTerm.toLowerCase()))`. -/
def filteredNotes (notes : List Note) (term : String) : List Note :=
  notes.filter (matchesSearch term)

/-- The predicate `n.timestamp?.toDate().toDateString() === new Date().toDateString()`:
a missing timestamp yields `undefined === string`, which is `false`. -/
def isTodayNote (today : DiaryDate) (n : Note) : Bool :=
  match n.timestamp with
  | some d => decide (d = today)
  | none => false

/-- The predicate `n.timestamp?.toDate().toDateString() !== new Date().toDateString()`:
a missing timestamp yields `undefined !== string`, which is `true`. -/
def isPastRaw (today : DiaryDate) (n : Note) : Bool :=
  match n.timestamp with
  | some d => decide (d ≠ today)
  | none => true

/-- Embeds `todayNotes = filteredNotes.filter(...)` from `App.jsx`. -/
def todayNotes (notes : List Note) (term : String) (today : DiaryDate) : List Note :=
  (filteredNotes notes term).filter (isTodayNote today)

/-- Embeds `pastNotesRaw = filteredNotes.filter(...)` from `App.jsx`. -/
def pastNotesRaw (notes : List Note) (term : String) (today : DiaryDate) : List Note :=
  (filteredNotes notes term).filter (isPastRaw today)

/-- Innermost level of the hierarchy: `acc[y][m]`, mapping a day number to
the list of notes pushed into that day bucket (insertion-ordered). -/
abbrev DayMap := List (Nat × List Note)

/-- Middle level of the hierarchy: `acc[y]`, mapping a month name to its day map. -/
abbrev MonthMap := List (String × DayMap)

/-- Outer level of the hierarchy: `acc`, mapping a year to its month map. -/
abbrev YearMap := List (Int × MonthMap)

/-- Embeds `if(!acc[y][m][day])acc[y][m][day]=[]; acc[y][m][day].push(note)`:
find-or-create the day entry and append the note to it. -/
def pushDay (dm : DayMap) (day : Nat) (n : Note) : DayMap :=
  match dm with
  | [] => [(day, [n])]
  | (d, ns) :: rest =>
    if d = day then (d, ns ++ [n]) :: rest else (d, ns) :: pushDay rest day n

/-- Embeds `if(!acc[y][m])acc[y][m]={}` followed by the day-level push. -/
def pushMonth (mm : MonthMap) (m : String) (day : Nat) (n : Note) : MonthMap :=
  match mm with
  | [] => [(m, pushDay [] day n)]
  | (m', dm) :: rest =>
    if m' = m then (m', pushDay dm day n) :: rest else (m', dm) :: pushMonth rest m day n

/-- Embeds `if(!acc[y])acc[y]={}` followed by the month-level push. -/
def pushYear (ym : YearMap) (y : Int) (m : String) (day : Nat) (n : Note) : YearMap :=
  match ym with
  | [] => [(y, pushMonth [] m day n)]
  | (y', mm) :: rest =>
    if y' = y then (y', pushMonth mm m day n) :: rest else (y', mm) :: pushYear rest y m day n

/-- One step of the `pastNotesRaw.reduce(...)` accumulator in `App.jsx`:
`const d=note.timestamp?.toDate(); if(!d) return acc;` then insert at
`[getFullYear()][toLocaleString month long][getDate()]`. -/
def insertNote (acc : YearMap) (n : Note) : YearMap :=
  match n.timestamp with
  | none => acc
  | some d => pushYear acc d.year (monthLong d.month) d.day n

/-- Embeds `structuredPastNotes = pastNotesRaw.reduce(..., {})`. -/
def structuredPastNotes (notes : List Note) (term : String) (today : DiaryDate) : YearMap :=
  (pastNotesRaw notes term today).foldl insertNote []

/-- Reads `acc[y][m][day]` (first matching entry, empty when absent). -/
def dayBucket (dm : DayMap) (day : Nat) : List Note :=
  match dm with
  | [] => []
  | (d, ns) :: rest => if d = day then ns else dayBucket rest day

/-- Reads `acc[y][m]` (first matching entry, empty when absent). -/
def getDays (mm : MonthMap) (m : String) : DayMap :=
  match mm with
  | [] => []
  | (m', dm) :: rest => if m' = m then dm else getDays rest m

/-- Reads `acc[y]` (first matching entry, empty when absent). -/
def getMonths (ym : YearMap) (y : Int) : MonthMap :=
  match ym with
  | [] => []
  | (y', mm) :: rest => if y' = y then mm else getMonths rest y

/-- The note list stored in the hierarchy under the key `(year, monthName, day)`. -/
def hierBucket (h : YearMap) (k : Int × String × Nat) : List Note :=
  dayBucket (getDays (getMonths h k.1) k.2.1) k.2.2

/-- The hierarchy key a note is routed to: `(getFullYear, month name, getDate)`
of its timestamp, or `none` when the timestamp is absent. -/
def noteKey (n : Note) : Option (Int × String × Nat) :=
  match n.timestamp with
  | none => none
  | some d => some (d.year, monthLong d.month, d.day)

/-- The `expandedItems` object: insertion-ordered key/value pairs, read
through first-match lookup (earlier pairs shadow later ones under
`getKey`, matching how a merged object is observed). -/
abbrev ExpState := List (String × Bool)

/-- Reads `expandedItems[key]`: an absent key is `undefined`, which is
falsy wherever the app branches on it. -/
def getKey (st : ExpState) (k : String) : Bool :=
  match st with
  | [] => false
  | (k', b) :: rest => if k' = k then b else getKey rest k

/-- Whether the object has an own entry for the key. -/
def hasKey (st : ExpState) (k : String) : Bool :=
  match st with
  | [] => false
  | (k', _) :: rest => if k' = k then true else hasKey rest k

/-- Embeds the object spread `({...prev, ...newExpanded})`: entries of
the second object shadow entries of the first under `getKey`. -/
def mergeStates (prev ne : ExpState) : ExpState :=
  ne ++ prev

/-- Key under which a year node is expanded: `newExpanded[d.getFullYear()]`
(JavaScript coerces the number to its decimal string). -/
def yearKey (d : DiaryDate) : String :=
  toString d.year

/-- Composite year-month node key, built in the source as the template
string of the year, a dash, and the long month name. -/
def yearMonthKey (d : DiaryDate) : String :=
  toString d.year ++ "-" ++ monthLong d.month

/-- One iteration of the `matches.forEach` body: assign `true` to the
year key and the year-month key of the note's date. -/
def addNoteKeys (st : ExpState) (d : DiaryDate) : ExpState :=
  st ++ [(yearKey d, true), (yearMonthKey d, true)]

/-- The `matches.forEach(n => { const d = n.timestamp.toDate(); ... })`
loop.  Reading `toDate` off a missing timestamp throws, so the loop is
fallible: it returns `none` exactly when some matched note lacks a
timestamp, in which case the subsequent state update never runs. -/
def buildExpanded (ms : List Note) (st : ExpState) : Option ExpState :=
  match ms with
  | [] => some st
  | n :: rest =>
    match n.timestamp with
    | none => none
    | some d => buildExpanded rest (addNoteKeys st d)

/-- Embeds the `matches` filter of the search-expansion effect:
text matches the term and `timestamp?.toDate().toDateString()` differs
from today's (`undefined !== string` is `true` for a missing timestamp). -/
def searchMatches (term : String) (notes : List Note) (today : DiaryDate) : List Note :=
  notes.filter (fun n => matchesSearch term n && isPastRaw today n)

/-- The slice of component state the search-expansion effect writes. -/
structure UIState where
  expandedItems : ExpState
  showPastNotes : Bool
deriving DecidableEq

/-- Embeds the search-expansion `useEffect` of `App.jsx`: return early on
a blank term; otherwise reveal the past section when there is a match,
then merge the freshly computed `newExpanded` keys over the previous
`expandedItems`.  When the `forEach` throws (a matched note without a
timestamp) the `setExpandedItems` call is never reached and the mapping
keeps its previous value. -/
def searchExpansionEffect (term : String) (notes : List Note) (today : DiaryDate)
    (ui : UIState) : UIState :=
  if jsTrim term = "" then ui
  else
    match buildExpanded (searchMatches term notes today) [] with
    | none =>
      { ui with showPastNotes :=
          if 0 < (searchMatches term notes today).length then true else ui.showPastNotes }
    | some ne =>
      { expandedItems := mergeStates ui.expandedItems ne,
        showPastNotes :=
          if 0 < (searchMatches term notes today).length then true else ui.showPastNotes }

/-- The document written by `addDoc`: trimmed text plus the creation
timestamp taken from `Timestamp.now()`. -/
structure NoteDoc where
  text : String
  timestamp : DiaryDate
deriving DecidableEq

/-- Embeds `addNote`: `if (user && text.trim()) await addDoc(..., { text:
text.trim(), timestamp: Timestamp.now() })`.  `Timestamp.now()` reads the
machine's clock at the call site, passed here as `clientNow`.  Returns
the document written, or `none` when the guard fails and nothing is
written. -/
def addNote (user : Option String) (text : String) (clientNow : DiaryDate) : Option NoteDoc :=
  if user.isSome ∧ jsTrim text ≠ "" then some ⟨jsTrim text, clientNow⟩ else none

/-- Effect of `addNote` on the backing collection: the store either gains
exactly the one written document (under a fresh server-chosen id) or is
left unchanged. -/
def addNoteStore (user : Option String) (text : String) (clientNow : DiaryDate)
    (freshId : String) (store : List Note) : List Note :=
  match addNote user text clientNow with
  | none => store
  | some nd => store ++ [⟨freshId, nd.text, some nd.timestamp⟩]

/-- Effect of `updateDoc(doc(...id), { text: newText })` on the
collection: only the `text` field of the documents carrying that id is
replaced. -/
def updateNoteText (store : List Note) (noteId : String) (newText : String) : List Note :=
  store.map (fun n => if n.id = noteId then { n with text := newText } else n)

/-- Embeds `saveEdit`: `if(user && editingNote) await updateDoc(doc(...,
editingNote.id), { text: editText })`. -/
def saveEdit (user : Option String) (editingNote : Option Note) (editText : String)
    (store : List Note) : List Note :=
  match user, editingNote with
  | some _, some en => updateNoteText store en.id editText
  | _, _ => store

/-- Frame condition relating a stored note before an edit to the
corresponding note after it: the id and timestamp are untouched, a note
whose id differs from the edited one is entirely untouched, and when the
edit applies, only the text field is replaced. -/
def editFrame (user : Option String) (editingNote : Option Note) (editText : String)
    (orig upd : Note) : Prop :=
  upd.id = orig.id ∧ upd.timestamp = orig.timestamp ∧
  (∀ e, editingNote = some e → orig.id ≠ e.id → upd = orig) ∧
  (user = none → upd = orig) ∧ (editingNote = none → upd = orig) ∧
  (∀ u e, user = some u → editingNote = some e → orig.id = e.id →
     upd = { orig with text := editText })

/-- Component state read and written by the recording gesture handlers. -/
structure RecState where
  micError : String
  recognitionReady : Bool
  isRecording : Bool
  transcript : String
deriving DecidableEq

/-- Embeds `handleRecordStart`: `if (micError || !recognitionRef.current)
return; transcriptRef.current = ""; setIsRecording(true);
recognitionRef.current.start();`.  The boolean result records whether a
start request was issued to the speech capability. -/
def handleRecordStart (s : RecState) : RecState × Bool :=
  if s.micError ≠ "" ∨ s.recognitionReady = false then (s, false)
  else ({ s with transcript := "", isRecording := true }, true)

/-- The `showDeleteConfirm` selection: delete everything, a whole year,
or a (year, month-name) pair. -/
inductive DeleteSel where
  | all : DeleteSel
  | year : Int → DeleteSel
  | month : Int → String → DeleteSel
deriving DecidableEq

/-- The note predicate of the `toDelete` filter in `handleConfirmDelete`:
`const d = n.timestamp?.toDate(); if(!d) return false;` then compare the
year (and for a month selection also the long month name). -/
def selMatches (sel : DeleteSel) (n : Note) : Bool :=
  match n.timestamp with
  | none => false
  | some d =>
    match sel with
    | .all => false
    | .year y => decide (d.year = y)
    | .month y m => decide (d.year = y) && decide (monthLong d.month = m)

/-- The `toDelete` list of `handleConfirmDelete`: the whole snapshot for
an `all` selection, otherwise the notes passing `selMatches`. -/
def toDelete (sel : DeleteSel) (notes : List Note) : List Note :=
  match sel with
  | .all => notes
  | _ => notes.filter (selMatches sel)

/-- Embeds `handleConfirmDelete` acting on the backing collection.
`notes` is the component's current snapshot (used to choose the ids),
`store` the backing collection the batch commit mutates.  The boolean
records whether a batch was committed; with an empty `toDelete` the
handler returns before creating the batch. -/
def handleConfirmDelete (user : Option String) (sel : Option DeleteSel)
    (notes : List Note) (store : List Note) : List Note × Bool :=
  match user, sel with
  | some _, some s =>
    let td := toDelete s notes
    if td.length = 0 then (store, false)
    else (store.filter (fun n => !((td.map (fun m => m.id)).contains n.id)), true)
  | _, _ => (store, false)

/-- Value of one hexadecimal digit, as `parseInt(-, 16)` reads it. -/
def hexDigitVal (c : Char) : Option Nat :=
  if '0' ≤ c ∧ c ≤ '9' then some (c.toNat - '0'.toNat)
  else if 'a' ≤ c ∧ c ≤ 'f' then some (c.toNat - 'a'.toNat + 10)
  else if 'A' ≤ c ∧ c ≤ 'F' then some (c.toNat - 'A'.toNat + 10)
  else none

/-- Embeds `parseInt(color.substring(i, i+2), 16)` on the character list
of the color string: two hexadecimal digits at positions `i` and `i+1`. -/
def parseHexPair (cs : List Char) (i : Nat) : Option Nat := do
  let c1 ← cs[i]?
  let c2 ← cs[i + 1]?
  let h ← hexDigitVal c1
  let l ← hexDigitVal c2
  pure (16 * h + l)

/-- Hexadecimal rendering of a natural number (`Number.toString(16)` for
a non-negative integer): base-16 digits, lowercase, no leading zeros. -/
def natToHex (n : Nat) : String :=
  String.mk (Nat.toDigits 16 n)

/-- JavaScript `i.toString(16)`: a negative integer renders as a minus
sign followed by the hexadecimal digits of its absolute value. -/
def intToHexStr (i : Int) : String :=
  if i < 0 then "-" ++ natToHex i.natAbs else natToHex i.toNat

/-- Embeds the per-byte encoding of `shadeColor`: `(x.toString(16).length
== 1) ? "0" + x.toString(16) : x.toString(16)`. -/
def padHexByte (i : Int) : String :=
  let s := intToHexStr i
  if s.length = 1 then "0" ++ s else s

/-- Embeds `R = (R<255)?R:255` of `shadeColor`: only the upper bound is
clamped. -/
def jsClampHigh (c : Int) : Int :=
  if c < 255 then c else 255

/-- One channel of `shadeColor`: `parseInt(R * (100 + percent) / 100)`
truncates toward zero (modelled by `Int.tdiv`), then the upper clamp. -/
def shadeChannel (c : Nat) (percent : Int) : Int :=
  jsClampHigh (Int.tdiv ((c : Int) * (100 + percent)) 100)

/-- Embeds `shadeColor(color, percent)` of `App.jsx`: decode the three
channel bytes at string positions 1-2, 3-4, 5-6, scale and clamp each,
and re-encode with the per-byte padding. -/
def shadeColor (color : String) (percent : Int) : Option String := do
  let r ← parseHexPair color.data 1
  let g ← parseHexPair color.data 3
  let b ← parseHexPair color.data 5
  pure ("#" ++ padHexByte (shadeChannel r percent) ++ padHexByte (shadeChannel g percent)
    ++ padHexByte (shadeChannel b percent))

/-- Embeds the piecewise gamma correction of `getTextColor`: the linear
segment below `0.03928` scaled by `1/12.92`, else the power curve. -/
noncomputable def gammaCorrect (col : ℝ) : ℝ :=
  if col ≤ 0.03928 then col / 12.92 else ((col + 0.055) / 1.055) ^ (2.4 : ℝ)

/-- Relative luminance computed by `getTextColor` from the three channel
bytes, with the `0.2126 / 0.7152 / 0.0722` weights. -/
noncomputable def luminanceRGB (r g b : Nat) : ℝ :=
  0.2126 * gammaCorrect ((r : ℝ) / 255) + 0.7152 * gammaCorrect ((g : ℝ) / 255)
    + 0.0722 * gammaCorrect ((b : ℝ) / 255)

/-- Foreground choice of `getTextColor` once the channels are decoded:
pure black above the `0.179` luminance threshold, else pure white. -/
noncomputable def textColorRGB (r g b : Nat) : String :=
  if luminanceRGB r g b > 0.179 then "#000000" else "#ffffff"

/-- Embeds `getTextColor(bgColor)`: a falsy argument yields white, a
leading `#` is stripped (`substring(1, 7)`), then the three channel
bytes are decoded and the threshold rule applied.  Decoding failure
(which in the source would flow `NaN` through the math) is returned as
`none`. -/
noncomputable def getTextColor (bgColor : String) : Option String :=
  if bgColor = "" then some "#ffffff"
  else
    let cs := if bgColor.data[0]? = some '#' then (bgColor.data.drop 1).take 6 else bgColor.data
    do
      let r ← parseHexPair cs 0
      let g ← parseHexPair cs 2
      let b ← parseHexPair cs 4
      pure (textColorRGB r g b)

/-! ### Helper lemmas: hexadecimal byte encoding -/

theorem padHexByte_length_of_byte (i : Int) (h0 : 0 ≤ i) (h255 : i ≤ 255) :
    (padHexByte i).length = 2 := by
  have key : ∀ n : Nat, n < 256 → (padHexByte (n : Int)).length = 2 := by decide
  have hi : i = ((i.toNat : Nat) : Int) := by omega
  rw [hi]
  exact key i.toNat (by omega)

theorem shadeChannel_bounds_of_ge (c : Nat) (percent : Int) (hp : -100 ≤ percent) :
    0 ≤ shadeChannel c percent ∧ shadeChannel c percent ≤ 255 := by
  have h0 : (0 : Int) ≤ Int.tdiv ((c : Int) * (100 + percent)) 100 :=
    Int.tdiv_nonneg (mul_nonneg (Int.natCast_nonneg c) (by omega)) (by omega)
  unfold shadeChannel jsClampHigh
  split <;> omega

theorem shadeColor_encodes (color : String) (r g b : Nat) (percent : Int)
    (hr : parseHexPair color.data 1 = some r)
    (hg : parseHexPair color.data 3 = some g)
    (hb : parseHexPair color.data 5 = some b) :
    shadeColor color percent =
      some ("#" ++ padHexByte (shadeChannel r percent) ++ padHexByte (shadeChannel g percent)
        ++ padHexByte (shadeChannel b percent)) := by
  simp [shadeColor, hr, hg, hb]

/-! ### Claim C8 -/

/-- Claim C8 counterexample: shading "#808080" by percent -200 produces
"#-80-80-80", not a clamped 6-hex-digit color.  Each scaled channel is
-128, which the source never clamps from below, so the claimed
[0,255] clamp (which would give "#000000") fails for percents below
-100. -/
theorem shadeColor_claim_counterexample :
    shadeColor "#808080" (-200) = some "#-80-80-80" ∧
    shadeColor "#808080" (-200) ≠ some "#000000" ∧
    shadeChannel 128 (-200) < 0 := by decide

/-- Claim C8 (amended): shadeColor scales each channel by
(100+percent)/100 with truncation and clamps only from above at 255; for
every percent of at least -100 each resulting channel lies in [0,255]
and the result is the hash sign followed by the three channels re-encoded
zero-padded to two hex digits each (7 characters in all), and shading
"#808080" by 0 is the identity. -/
theorem shadeColor_spec (color : String) (r g b : Nat) (percent : Int)
    (hr : parseHexPair color.data 1 = some r)
    (hg : parseHexPair color.data 3 = some g)
    (hb : parseHexPair color.data 5 = some b)
    (hp : -100 ≤ percent) :
    (0 ≤ shadeChannel r percent ∧ shadeChannel r percent ≤ 255) ∧
    (0 ≤ shadeChannel g percent ∧ shadeChannel g percent ≤ 255) ∧
    (0 ≤ shadeChannel b percent ∧ shadeChannel b percent ≤ 255) ∧
    shadeColor color percent =
      some ("#" ++ padHexByte (shadeChannel r percent) ++ padHexByte (shadeChannel g percent)
        ++ padHexByte (shadeChannel b percent)) ∧
    ("#" ++ padHexByte (shadeChannel r percent) ++ padHexByte (shadeChannel g percent)
        ++ padHexByte (shadeChannel b percent)).length = 7 ∧
    shadeColor "#808080" 0 = some "#808080" := by
  obtain ⟨hr0, hr255⟩ := shadeChannel_bounds_of_ge r percent hp
  obtain ⟨hg0, hg255⟩ := shadeChannel_bounds_of_ge g percent hp
  obtain ⟨hb0, hb255⟩ := shadeChannel_bounds_of_ge b percent hp
  refine ⟨⟨hr0, hr255⟩, ⟨hg0, hg255⟩, ⟨hb0, hb255⟩, shadeColor_encodes color r g b percent hr hg hb, ?_, by decide⟩
  rw [String.length_append, String.length_append, String.length_append,
    padHexByte_length_of_byte _ hr0 hr255, padHexByte_length_of_byte _ hg0 hg255,
    padHexByte_length_of_byte _ hb0 hb255]
  rfl

/-- Claim C8 witness: the amended statement instantiated at color
"#4080c0" and percent -50. -/
theorem shadeColor_spec_witness :
    (0 ≤ shadeChannel 64 (-50) ∧ shadeChannel 64 (-50) ≤ 255) ∧
    (0 ≤ shadeChannel 128 (-50) ∧ shadeChannel 128 (-50) ≤ 255) ∧
    (0 ≤ shadeChannel 192 (-50) ∧ shadeChannel 192 (-50) ≤ 255) ∧
    shadeColor "#4080c0" (-50) =
      some ("#" ++ padHexByte (shadeChannel 64 (-50)) ++ padHexByte (shadeChannel 128 (-50))
        ++ padHexByte (shadeChannel 192 (-50))) ∧
    ("#" ++ padHexByte (shadeChannel 64 (-50)) ++ padHexByte (shadeChannel 128 (-50))
        ++ padHexByte (shadeChannel 192 (-50))).length = 7 ∧
    shadeColor "#808080" 0 = some "#808080" :=
  shadeColor_spec "#4080c0" 64 128 192 (-50) (by decide) (by decide) (by decide) (by decide)

/-! ### Helper lemmas: the date hierarchy -/

theorem dayBucket_pushDay (dm : DayMap) (day' day : Nat) (n : Note) :
    dayBucket (pushDay dm day' n) day =
      if day' = day then dayBucket dm day ++ [n] else dayBucket dm day := by
  induction dm with
  | nil =>
    simp only [pushDay, dayBucket]
    split <;> simp [dayBucket]
  | cons p rest ih =>
    obtain ⟨d, ns⟩ := p
    by_cases h1 : d = day' <;> by_cases h2 : d = day <;> by_cases h3 : day' = day <;>
      simp_all [pushDay, dayBucket]

theorem getDays_pushMonth (mm : MonthMap) (m' m : String) (day' : Nat) (n : Note) :
    getDays (pushMonth mm m' day' n) m =
      if m' = m then pushDay (getDays mm m) day' n else getDays mm m := by
  induction mm with
  | nil =>
    simp only [pushMonth, getDays]
  | cons p rest ih =>
    obtain ⟨mk, dm⟩ := p
    by_cases h1 : mk = m' <;> by_cases h2 : mk = m <;> by_cases h3 : m' = m <;>
      simp_all [pushMonth, getDays]

theorem getMonths_pushYear (ym : YearMap) (y' y : Int) (m : String) (day : Nat) (n : Note) :
    getMonths (pushYear ym y' m day n) y =
      if y' = y then pushMonth (getMonths ym y) m day n else getMonths ym y := by
  induction ym with
  | nil =>
    simp only [pushYear, getMonths]
  | cons p rest ih =>
    obtain ⟨yk, mm⟩ := p
    by_cases h1 : yk = y' <;> by_cases h2 : yk = y <;> by_cases h3 : y' = y <;>
      simp_all [pushYear, getMonths]

theorem hierBucket_insertNote (acc : YearMap) (n : Note) (k : Int × String × Nat) :
    hierBucket (insertNote acc n) k =
      if noteKey n = some k then hierBucket acc k ++ [n] else hierBucket acc k := by
  obtain ⟨y, m, day⟩ := k
  cases hts : n.timestamp with
  | none => simp [insertNote, hts, noteKey]
  | some d =>
    simp only [insertNote, hts, noteKey, hierBucket, Option.some_inj, Prod.mk.injEq]
    rw [getMonths_pushYear]
    by_cases hy : d.year = y
    · rw [if_pos hy, getDays_pushMonth]
      by_cases hm : monthLong d.month = m
      · rw [if_pos hm, dayBucket_pushDay]
        by_cases hd : d.day = day
        · rw [if_pos hd, if_pos ⟨hy, hm, hd⟩]
        · rw [if_neg hd, if_neg (by simp [hd])]
      · rw [if_neg hm, if_neg (by simp [hm])]
    · rw [if_neg hy, if_neg (by simp [hy])]

theorem hierBucket_nil (k : Int × String × Nat) : hierBucket [] k = [] := by
  simp [hierBucket, getMonths, getDays, dayBucket]

theorem mem_hierBucket_foldl (l : List Note) (acc : YearMap) (n : Note)
    (k : Int × String × Nat) :
    n ∈ hierBucket (l.foldl insertNote acc) k ↔
      n ∈ hierBucket acc k ∨ (n ∈ l ∧ noteKey n = some k) := by
  induction l generalizing acc with
  | nil => simp
  | cons n' rest ih =>
    rw [List.foldl_cons, ih, hierBucket_insertNote]
    by_cases h : noteKey n' = some k
    · rw [if_pos h]
      simp only [List.mem_append, List.mem_cons, List.not_mem_nil, or_false]
      constructor
      · rintro ((ha | he) | ⟨hm, hk⟩)
        · exact Or.inl ha
        · exact Or.inr ⟨Or.inl he, he ▸ h⟩
        · exact Or.inr ⟨Or.inr hm, hk⟩
      · rintro (ha | ⟨(he | hm), hk⟩)
        · exact Or.inl (Or.inl ha)
        · exact Or.inl (Or.inr he)
        · exact Or.inr ⟨hm, hk⟩
    · rw [if_neg h]
      simp only [List.mem_cons]
      constructor
      · rintro (ha | ⟨hm, hk⟩)
        · exact Or.inl ha
        · exact Or.inr ⟨Or.inr hm, hk⟩
      · rintro (ha | ⟨(he | hm), hk⟩)
        · exact Or.inl ha
        · exact absurd (he ▸ hk) h
        · exact Or.inr ⟨hm, hk⟩

theorem mem_structuredPastNotes (notes : List Note) (term : String) (today : DiaryDate)
    (n : Note) (k : Int × String × Nat) :
    n ∈ hierBucket (structuredPastNotes notes term today) k ↔
      n ∈ pastNotesRaw notes term today ∧ noteKey n = some k := by
  unfold structuredPastNotes
  rw [mem_hierBucket_foldl, hierBucket_nil]
  simp

/-! ### Claim C1 -/

/-- Claim C1: for every collection, search term, and note carrying a
timestamp that passes the text filter, the grouping is a partition: a
note dated today is in the today bucket and in no hierarchy bucket; any
other note is not in the today bucket and lies in exactly one
(year, month-name, day) bucket of the past hierarchy. -/
theorem grouping_is_partition (notes : List Note) (term : String) (today : DiaryDate)
    (n : Note) (d : DiaryDate) (hts : n.timestamp = some d)
    (hmem : n ∈ filteredNotes notes term) :
    (d = today → n ∈ todayNotes notes term today ∧
       ∀ k, n ∉ hierBucket (structuredPastNotes notes term today) k) ∧
    (d ≠ today → n ∉ todayNotes notes term today ∧
       ∃! k, n ∈ hierBucket (structuredPastNotes notes term today) k) := by
  constructor
  · intro h
    refine ⟨?_, ?_⟩
    · unfold todayNotes
      rw [List.mem_filter]
      exact ⟨hmem, by simp [isTodayNote, hts, h]⟩
    · intro k hk
      rw [mem_structuredPastNotes] at hk
      have hp := hk.1
      unfold pastNotesRaw at hp
      rw [List.mem_filter] at hp
      have := hp.2
      simp [isPastRaw, hts, h] at this
  · intro h
    refine ⟨?_, ?_⟩
    · intro hin
      unfold todayNotes at hin
      rw [List.mem_filter] at hin
      have := hin.2
      simp [isTodayNote, hts] at this
      exact h this
    · have hkey : n ∈ hierBucket (structuredPastNotes notes term today)
          (d.year, monthLong d.month, d.day) := by
        rw [mem_structuredPastNotes]
        refine ⟨?_, by simp [noteKey, hts]⟩
        unfold pastNotesRaw
        rw [List.mem_filter]
        exact ⟨hmem, by simp [isPastRaw, hts, h]⟩
      refine ⟨(d.year, monthLong d.month, d.day), hkey, ?_⟩
      intro k hk
      rw [mem_structuredPastNotes] at hk
      have := hk.2
      simp only [noteKey, hts, Option.some_inj] at this
      exact this.symm

/-- Claim C1 witness: a concrete two-note collection with an empty
search term, one note dated today and one past note, instantiating the
partition statement at each of the two notes would go through this
theorem; here the past note is used. -/
theorem grouping_is_partition_witness :
    (((⟨2024, 0, 20⟩ : DiaryDate) = ⟨2025, 5, 1⟩ →
       (⟨"a", "hello", some ⟨2024, 0, 20⟩⟩ : Note) ∈
         todayNotes [⟨"a", "hello", some ⟨2024, 0, 20⟩⟩, ⟨"b", "world", some ⟨2025, 5, 1⟩⟩]
           "" ⟨2025, 5, 1⟩ ∧
       ∀ k, (⟨"a", "hello", some ⟨2024, 0, 20⟩⟩ : Note) ∉
         hierBucket (structuredPastNotes
           [⟨"a", "hello", some ⟨2024, 0, 20⟩⟩, ⟨"b", "world", some ⟨2025, 5, 1⟩⟩]
           "" ⟨2025, 5, 1⟩) k) ∧
     ((⟨2024, 0, 20⟩ : DiaryDate) ≠ ⟨2025, 5, 1⟩ →
       (⟨"a", "hello", some ⟨2024, 0, 20⟩⟩ : Note) ∉
         todayNotes [⟨"a", "hello", some ⟨2024, 0, 20⟩⟩, ⟨"b", "world", some ⟨2025, 5, 1⟩⟩]
           "" ⟨2025, 5, 1⟩ ∧
       ∃! k, (⟨"a", "hello", some ⟨2024, 0, 20⟩⟩ : Note) ∈
         hierBucket (structuredPastNotes
           [⟨"a", "hello", some ⟨2024, 0, 20⟩⟩, ⟨"b", "world", some ⟨2025, 5, 1⟩⟩]
           "" ⟨2025, 5, 1⟩) k)) :=
  grouping_is_partition
    [⟨"a", "hello", some ⟨2024, 0, 20⟩⟩, ⟨"b", "world", some ⟨2025, 5, 1⟩⟩]
    "" ⟨2025, 5, 1⟩ ⟨"a", "hello", some ⟨2024, 0, 20⟩⟩ ⟨2024, 0, 20⟩ rfl (by decide)

/-! ### Claim C3 -/

/-- Claim C3: a note without a timestamp is silently dropped from every
grouping: it is never in the today bucket and never in any
(year, month-name, day) bucket of the past hierarchy, for any collection
and search term (the grouping functions are total, so no error can
arise). -/
theorem missing_timestamp_dropped (notes : List Note) (term : String) (today : DiaryDate)
    (n : Note) (hts : n.timestamp = none) :
    n ∉ todayNotes notes term today ∧
    ∀ k, n ∉ hierBucket (structuredPastNotes notes term today) k := by
  refine ⟨?_, ?_⟩
  · intro hin
    unfold todayNotes at hin
    rw [List.mem_filter] at hin
    have := hin.2
    simp [isTodayNote, hts] at this
  · intro k hk
    rw [mem_structuredPastNotes] at hk
    have := hk.2
    simp [noteKey, hts] at this

/-- Claim C3 witness: a concrete timestampless note in a concrete
collection is in neither grouping. -/
theorem missing_timestamp_dropped_witness :
    (⟨"c", "ghost", none⟩ : Note) ∉
      todayNotes [⟨"a", "hello", some ⟨2024, 0, 20⟩⟩, ⟨"c", "ghost", none⟩] "g" ⟨2025, 5, 1⟩ ∧
    ∀ k, (⟨"c", "ghost", none⟩ : Note) ∉
      hierBucket (structuredPastNotes
        [⟨"a", "hello", some ⟨2024, 0, 20⟩⟩, ⟨"c", "ghost", none⟩] "g" ⟨2025, 5, 1⟩) k :=
  missing_timestamp_dropped [⟨"a", "hello", some ⟨2024, 0, 20⟩⟩, ⟨"c", "ghost", none⟩]
    "g" ⟨2025, 5, 1⟩ ⟨"c", "ghost", none⟩ rfl

/-! ### Helper lemmas: expansion state -/

theorem getKey_append (a b : ExpState) (k : String) :
    getKey (a ++ b) k = if hasKey a k then getKey a k else getKey b k := by
  induction a with
  | nil => simp [getKey, hasKey]
  | cons p rest ih =>
    obtain ⟨k', v⟩ := p
    by_cases h : k' = k <;> simp [getKey, hasKey, h, ih]

theorem hasKey_append (a b : ExpState) (k : String) :
    hasKey (a ++ b) k = (hasKey a k || hasKey b k) := by
  induction a with
  | nil => simp [hasKey]
  | cons p rest ih =>
    obtain ⟨k', v⟩ := p
    by_cases h : k' = k <;> simp [hasKey, h, ih]

theorem buildExpanded_all_true (ms : List Note) (st ne : ExpState)
    (hb : buildExpanded ms st = some ne) (hst : ∀ p ∈ st, p.2 = true) :
    ∀ p ∈ ne, p.2 = true := by
  induction ms generalizing st with
  | nil =>
    simp only [buildExpanded, Option.some_inj] at hb
    exact hb ▸ hst
  | cons n rest ih =>
    cases hts : n.timestamp with
    | none => simp [buildExpanded, hts] at hb
    | some d =>
      simp only [buildExpanded, hts] at hb
      refine ih _ hb ?_
      intro p hp
      rw [addNoteKeys, List.mem_append] at hp
      rcases hp with hp | hp
      · exact hst p hp
      · simp only [List.mem_cons, List.not_mem_nil, or_false] at hp
        rcases hp with hp | hp <;> rw [hp]

theorem getKey_true_of_hasKey (ne : ExpState) (k : String)
    (hall : ∀ p ∈ ne, p.2 = true) (hk : hasKey ne k = true) :
    getKey ne k = true := by
  induction ne with
  | nil => simp [hasKey] at hk
  | cons p rest ih =>
    obtain ⟨k', v⟩ := p
    by_cases h : k' = k
    · have hv : v = true := hall (k', v) (by simp)
      simp [getKey, h, hv]
    · simp only [getKey, hasKey, if_neg h] at hk ⊢
      exact ih (fun p hp => hall p (List.mem_cons_of_mem _ hp)) hk

theorem buildExpanded_key_origin (ms : List Note) (st ne : ExpState) (k : String)
    (hb : buildExpanded ms st = some ne) (hk : hasKey ne k = true) :
    hasKey st k = true ∨
      ∃ n ∈ ms, ∃ d, n.timestamp = some d ∧ (k = yearKey d ∨ k = yearMonthKey d) := by
  induction ms generalizing st with
  | nil =>
    simp only [buildExpanded, Option.some_inj] at hb
    exact Or.inl (hb ▸ hk)
  | cons n rest ih =>
    cases hts : n.timestamp with
    | none => simp [buildExpanded, hts] at hb
    | some d =>
      simp only [buildExpanded, hts] at hb
      rcases ih _ hb with h | ⟨n', hn', d', hd', hkd⟩
      · rw [addNoteKeys, hasKey_append, Bool.or_eq_true] at h
        rcases h with h | h
        · exact Or.inl h
        · simp only [hasKey] at h
          by_cases hy : yearKey d = k
          · exact Or.inr ⟨n, List.mem_cons_self n rest, d, hts, Or.inl hy.symm⟩
          · rw [if_neg hy] at h
            by_cases hym : yearMonthKey d = k
            · exact Or.inr ⟨n, List.mem_cons_self n rest, d, hts, Or.inr hym.symm⟩
            · rw [if_neg hym] at h
              exact absurd h (by simp)
      · exact Or.inr ⟨n', List.mem_cons_of_mem _ hn', d', hd', hkd⟩

theorem searchExpansionEffect_monotone_step (term : String) (notes : List Note)
    (today : DiaryDate) (ui : UIState) (k : String)
    (h : getKey ui.expandedItems k = true) :
    getKey (searchExpansionEffect term notes today ui).expandedItems k = true := by
  unfold searchExpansionEffect
  by_cases ht : jsTrim term = ""
  · rw [if_pos ht]
    exact h
  · rw [if_neg ht]
    cases hb : buildExpanded (searchMatches term notes today) [] with
    | none => simpa [hb] using h
    | some ne =>
      simp only [hb, mergeStates]
      rw [getKey_append]
      by_cases hk : hasKey ne k = true
      · rw [if_pos hk]
        exact getKey_true_of_hasKey ne k (buildExpanded_all_true _ _ _ hb (by simp)) hk
      · rw [if_neg (by simpa using hk)]
        exact h

/-! ### Claim C2 -/

/-- Claim C2: for a non-blank search term the expansion update is purely
additive: every previously-true key stays true; any key whose value it
makes true that was not true before is the year key or year-month key of
one of the matched past notes (always set to true); and across any
sequence of expansion updates previously-true keys remain true. -/
theorem searchExpansion_monotone (term : String) (notes : List Note) (today : DiaryDate)
    (ui : UIState) (k : String) (hterm : jsTrim term ≠ "") :
    (getKey ui.expandedItems k = true →
       getKey (searchExpansionEffect term notes today ui).expandedItems k = true) ∧
    (getKey (searchExpansionEffect term notes today ui).expandedItems k = true →
       getKey ui.expandedItems k = true ∨
         ∃ n ∈ searchMatches term notes today, ∃ d, n.timestamp = some d ∧
           (k = yearKey d ∨ k = yearMonthKey d)) ∧
    (∀ ts : List String,
       getKey ui.expandedItems k = true →
       getKey ((ts.foldl (fun s t => searchExpansionEffect t notes today s) ui).expandedItems) k
         = true) := by
  refine ⟨searchExpansionEffect_monotone_step term notes today ui k, ?_, ?_⟩
  · unfold searchExpansionEffect
    rw [if_neg hterm]
    cases hb : buildExpanded (searchMatches term notes today) [] with
    | none => exact fun hafter => Or.inl hafter
    | some ne =>
      intro hafter
      have hafter' : getKey (mergeStates ui.expandedItems ne) k = true := hafter
      rw [mergeStates, getKey_append] at hafter'
      by_cases hk : hasKey ne k = true
      · rcases buildExpanded_key_origin _ _ _ k hb hk with h0 | h0
        · simp [hasKey] at h0
        · exact Or.inr h0
      · rw [if_neg (by simpa using hk)] at hafter'
        exact Or.inl hafter'
  · intro ts
    induction ts generalizing ui with
    | nil => exact fun h => h
    | cons t rest ih =>
      intro h
      exact ih _ (searchExpansionEffect_monotone_step t notes today ui k h)

/-- Claim C2 witness: refining the term "hello" over a one-note
collection keeps the manually opened key "x" true, classifies the newly
true keys, and a two-term sequence keeps "x" true. -/
theorem searchExpansion_monotone_witness :
    (getKey [("x", true)] "x" = true →
       getKey (searchExpansionEffect "hello" [⟨"a", "hello", some ⟨2024, 0, 20⟩⟩]
         ⟨2025, 5, 1⟩ ⟨[("x", true)], false⟩).expandedItems "x" = true) ∧
    (getKey (searchExpansionEffect "hello" [⟨"a", "hello", some ⟨2024, 0, 20⟩⟩]
         ⟨2025, 5, 1⟩ ⟨[("x", true)], false⟩).expandedItems "x" = true →
       getKey [("x", true)] "x" = true ∨
         ∃ n ∈ searchMatches "hello" [⟨"a", "hello", some ⟨2024, 0, 20⟩⟩] ⟨2025, 5, 1⟩,
           ∃ d, n.timestamp = some d ∧ ("x" = yearKey d ∨ "x" = yearMonthKey d)) ∧
    (∀ ts : List String,
       getKey [("x", true)] "x" = true →
       getKey ((ts.foldl
           (fun s t => searchExpansionEffect t [⟨"a", "hello", some ⟨2024, 0, 20⟩⟩] ⟨2025, 5, 1⟩ s)
           ⟨[("x", true)], false⟩).expandedItems) "x" = true) :=
  searchExpansion_monotone "hello" [⟨"a", "hello", some ⟨2024, 0, 20⟩⟩] ⟨2025, 5, 1⟩
    ⟨[("x", true)], false⟩ "x" (by decide)

/-! ### Claim C4 -/

/-- Claim C4 counterexample: the stored timestamp is derived from the
client clock.  With one fixed user and text, creating the note under two
different client-clock instants stores two different timestamps — the
document written by the source's addNote is `{ text: text.trim(),
timestamp: Timestamp.now() }`, and `Timestamp.now()` reads the machine
clock of the client, not a server-assigned time. -/
theorem addNote_client_clock_counterexample :
    addNote (some "u") "hello" ⟨2024, 0, 1⟩ ≠ addNote (some "u") "hello" ⟨2024, 0, 2⟩ ∧
    (addNote (some "u") "hello" ⟨2024, 0, 1⟩).map (fun nd => nd.timestamp)
      = some ⟨2024, 0, 1⟩ := by
  decide

/-- Claim C4 (amended): the note-creation operation stamps the new
document with the client clock reading taken at the call
(`Timestamp.now()`): whenever a document is written, its stored
timestamp equals that client-clock instant.  The timestamp is
client-clock-derived, not server-assigned. -/
theorem addNote_timestamp_is_client_now (user : Option String) (text : String)
    (clientNow : DiaryDate) (hu : user.isSome) (ht : jsTrim text ≠ "") :
    (addNote user text clientNow).map (fun nd => nd.timestamp) = some clientNow := by
  unfold addNote
  rw [if_pos ⟨hu, ht⟩]
  rfl

/-- Claim C4 witness: the amended statement at a concrete user, text and
client-clock instant. -/
theorem addNote_timestamp_is_client_now_witness :
    (addNote (some "u") "hi" (⟨2024, 0, 1⟩ : DiaryDate)).map (fun nd => nd.timestamp)
      = some ⟨2024, 0, 1⟩ :=
  addNote_timestamp_is_client_now (some "u") "hi" ⟨2024, 0, 1⟩ (by decide) (by decide)

/-! ### Claim C5 -/

/-- Claim C5 counterexample: with no recorded speech error, a ready
recognition handle, and a recording session already active,
handleRecordStart is not a no-op: it clears the transcript buffer and
issues a second start request to the speech capability, contradicting
the claimed guard on an already-active session. -/
theorem handleRecordStart_claim_counterexample :
    handleRecordStart ⟨"", true, true, "x"⟩ ≠ (⟨"", true, true, "x"⟩, false) ∧
    (handleRecordStart ⟨"", true, true, "x"⟩).2 = true := by
  decide

/-- Claim C5 (amended): the gesture-start handler is a guarded no-op
exactly when a speech error is recorded or the recognition handle is not
ready — in those cases it leaves all state unchanged and issues no start
request.  It does not check whether a recording is already active: with
no error and a ready handle it always clears the transcript, marks
recording, and issues a start request, even mid-session. -/
theorem handleRecordStart_guard (s : RecState) :
    ((s.micError ≠ "" ∨ s.recognitionReady = false) → handleRecordStart s = (s, false)) ∧
    (s.micError = "" → s.recognitionReady = true →
       handleRecordStart s = ({ s with transcript := "", isRecording := true }, true)) := by
  constructor
  · intro h
    unfold handleRecordStart
    rw [if_pos h]
  · intro h1 h2
    unfold handleRecordStart
    rw [if_neg (by simp [h1, h2])]

/-- Claim C5 witness: the guard refuses to start while an error is
recorded, and a start from a clean idle state issues the request. -/
theorem handleRecordStart_guard_witness :
    handleRecordStart ⟨"boom", true, false, "t"⟩ = (⟨"boom", true, false, "t"⟩, false) ∧
    handleRecordStart ⟨"", true, false, ""⟩ = (⟨"", true, true, ""⟩, true) :=
  ⟨(handleRecordStart_guard ⟨"boom", true, false, "t"⟩).1 (Or.inl (by decide)),
   (handleRecordStart_guard ⟨"", true, false, ""⟩).2 rfl rfl⟩

/-! ### Claim C6 -/

/-- Claim C6: with no signed-in user or a text whose trimmed form is
empty, addNote silently writes nothing and the store is unchanged; with
a signed-in user and a non-blank text exactly one document is appended,
carrying the trimmed text and the creation timestamp. -/
theorem addNote_validation (user : Option String) (text : String) (clientNow : DiaryDate)
    (freshId : String) (store : List Note) :
    ((user = none ∨ jsTrim text = "") →
       addNote user text clientNow = none ∧
       addNoteStore user text clientNow freshId store = store) ∧
    (∀ u, user = some u → jsTrim text ≠ "" →
       addNoteStore user text clientNow freshId store
         = store ++ [⟨freshId, jsTrim text, some clientNow⟩]) := by
  constructor
  · intro h
    have hguard : ¬(user.isSome = true ∧ jsTrim text ≠ "") := by
      rcases h with h | h
      · subst h
        simp
      · simp [h]
    have ha : addNote user text clientNow = none := by
      unfold addNote
      rw [if_neg hguard]
    exact ⟨ha, by simp [addNoteStore, ha]⟩
  · intro u hu ht
    have ha : addNote user text clientNow = some ⟨jsTrim text, clientNow⟩ := by
      unfold addNote
      rw [if_pos ⟨by simp [hu], ht⟩]
    simp [addNoteStore, ha]

/-- Claim C6 witness: a whitespace-only transcript writes nothing, and a
real transcript appends exactly one trimmed, timestamped document. -/
theorem addNote_validation_witness :
    (addNote (some "u") "   " ⟨2024, 0, 1⟩ = none ∧
       addNoteStore (some "u") "   " ⟨2024, 0, 1⟩ "f1" [] = []) ∧
    addNoteStore (some "u") " hi " (⟨2024, 0, 1⟩ : DiaryDate) "f1" []
      = [⟨"f1", "hi", some ⟨2024, 0, 1⟩⟩] := by
  constructor
  · exact (addNote_validation (some "u") "   " ⟨2024, 0, 1⟩ "f1" []).1 (Or.inr (by decide))
  · have h := (addNote_validation (some "u") " hi " ⟨2024, 0, 1⟩ "f1" []).2 "u" rfl (by decide)
    simpa using h

/-! ### Claim C7 -/

/-- Claim C7: saving an edit relates the store before and after
pointwise (same length, position by position): every note keeps its id
and timestamp, every note other than the edited one is unchanged, and
the edited note changes only in its text field. -/
theorem saveEdit_frame (user : Option String) (en : Option Note) (editText : String)
    (store : List Note) :
    List.Forall₂ (editFrame user en editText) store (saveEdit user en editText store) := by
  cases user with
  | none =>
    cases en with
    | none =>
      exact List.forall₂_same.mpr fun x _ =>
        ⟨rfl, rfl, fun _ _ _ => rfl, fun _ => rfl, fun _ => rfl,
         fun u e h => absurd h (by simp)⟩
    | some e =>
      exact List.forall₂_same.mpr fun x _ =>
        ⟨rfl, rfl, fun _ _ _ => rfl, fun _ => rfl, fun _ => rfl,
         fun u e' h => absurd h (by simp)⟩
  | some u =>
    cases en with
    | none =>
      exact List.forall₂_same.mpr fun x _ =>
        ⟨rfl, rfl, fun e' he' => absurd he' (by simp), fun h => absurd h (by simp),
         fun _ => rfl, fun u' e' _ he' => absurd he' (by simp)⟩
    | some e =>
      show List.Forall₂ _ store (updateNoteText store e.id editText)
      unfold updateNoteText
      rw [List.forall₂_map_right_iff, List.forall₂_same]
      intro x _
      by_cases hid : x.id = e.id
      · rw [if_pos hid]
        refine ⟨rfl, rfl, ?_, ?_, ?_, ?_⟩
        · intro e' he' hne
          rw [Option.some_inj] at he'
          exact absurd (he' ▸ hid) hne
        · intro h
          cases h
        · intro h
          cases h
        · intro _ _ _ _ _
          rfl
      · rw [if_neg hid]
        exact ⟨rfl, rfl, fun _ _ _ => rfl, fun _ => rfl, fun _ => rfl,
          fun u' e' _ he' hxe => absurd (Option.some_inj.mp he' ▸ hxe) hid⟩

/-- Claim C7 witness: editing the first of two concrete notes. -/
theorem saveEdit_frame_witness :
    List.Forall₂ (editFrame (some "u") (some ⟨"a", "old", some ⟨2024, 0, 20⟩⟩) "new")
      [⟨"a", "old", some ⟨2024, 0, 20⟩⟩, ⟨"b", "keep", some ⟨2023, 10, 5⟩⟩]
      (saveEdit (some "u") (some ⟨"a", "old", some ⟨2024, 0, 20⟩⟩) "new"
        [⟨"a", "old", some ⟨2024, 0, 20⟩⟩, ⟨"b", "keep", some ⟨2023, 10, 5⟩⟩]) :=
  saveEdit_frame (some "u") (some ⟨"a", "old", some ⟨2024, 0, 20⟩⟩) "new"
    [⟨"a", "old", some ⟨2024, 0, 20⟩⟩, ⟨"b", "keep", some ⟨2023, 10, 5⟩⟩]

/-! ### Helper lemmas: batch deletion -/

theorem filter_not_mem_ids (notes : List Note) (p : Note → Bool)
    (hnd : (notes.map (fun n => n.id)).Nodup) :
    notes.filter (fun n => !((notes.filter p).map (fun m => m.id)).contains n.id)
      = notes.filter (fun n => !(p n)) := by
  apply List.filter_congr
  intro n hn
  have hmem : ((notes.filter p).map (fun m => m.id)).contains n.id = true ↔ p n = true := by
    simp only [List.contains, List.elem_eq_mem, decide_eq_true_iff, List.mem_map]
    constructor
    · rintro ⟨m, hm, hid⟩
      rw [List.mem_filter] at hm
      have hmn : m = n := List.inj_on_of_nodup_map hnd hm.1 hn hid
      exact hmn ▸ hm.2
    · intro hp
      exact ⟨n, List.mem_filter.mpr ⟨hn, hp⟩, rfl⟩
  cases hp : p n with
  | true => rw [hmem.mpr hp]
  | false =>
    have hc : ((notes.filter p).map (fun m => m.id)).contains n.id = false := by
      cases hc : ((notes.filter p).map (fun m => m.id)).contains n.id with
      | false => rfl
      | true => exact absurd (hmem.mp hc) (by simp [hp])
    rw [hc]

theorem toDelete_year (y : Int) (notes : List Note) :
    toDelete (.year y) notes = notes.filter (selMatches (.year y)) := rfl

theorem toDelete_month (y : Int) (m : String) (notes : List Note) :
    toDelete (.month y m) notes = notes.filter (selMatches (.month y m)) := rfl

/-! ### Claim C10 -/

/-- Claim C10: for a confirmed year or month delete selection over a
snapshot with distinct document ids, the committed batch removes exactly
the notes whose timestamp matches the selected year (and month name),
keeping every non-matching note — in particular every note without a
timestamp, which never matches; and when nothing matches, no batch is
committed and the store is unchanged. -/
theorem handleConfirmDelete_exact (u : String) (notes : List Note) (sel : DeleteSel)
    (hnd : (notes.map (fun n => n.id)).Nodup)
    (hsel : (∃ y, sel = .year y) ∨ ∃ y m, sel = .month y m) :
    (toDelete sel notes = [] →
       handleConfirmDelete (some u) (some sel) notes notes = (notes, false)) ∧
    (toDelete sel notes ≠ [] →
       handleConfirmDelete (some u) (some sel) notes notes
         = (notes.filter (fun n => !(selMatches sel n)), true)) ∧
    (∀ n, n.timestamp = none → selMatches sel n = false) ∧
    (∀ n ∈ notes, selMatches sel n = false →
       n ∈ (handleConfirmDelete (some u) (some sel) notes notes).1) := by
  have hfilter : toDelete sel notes = notes.filter (selMatches sel) := by
    rcases hsel with ⟨y, rfl⟩ | ⟨y, m, rfl⟩
    · exact toDelete_year y notes
    · exact toDelete_month y m notes
  have hnone : ∀ n : Note, n.timestamp = none → selMatches sel n = false := by
    intro n hts
    rcases hsel with ⟨y, rfl⟩ | ⟨y, m, rfl⟩ <;> simp [selMatches, hts]
  refine ⟨?_, ?_, hnone, ?_⟩
  · intro hempty
    simp only [handleConfirmDelete]
    rw [if_pos (by rw [hempty]; rfl)]
  · intro hne
    simp only [handleConfirmDelete]
    rw [if_neg (by simpa [List.length_eq_zero] using hne), hfilter,
      filter_not_mem_ids notes (selMatches sel) hnd]
  · intro n hn hmatch
    by_cases hempty : toDelete sel notes = []
    · simp only [handleConfirmDelete]
      rw [if_pos (by rw [hempty]; rfl)]
      exact hn
    · simp only [handleConfirmDelete]
      rw [if_neg (by simpa [List.length_eq_zero] using hempty), hfilter,
        filter_not_mem_ids notes (selMatches sel) hnd]
      exact List.mem_filter.mpr ⟨hn, by simp [hmatch]⟩

/-- Claim C10 witness: deleting year 2024 from a concrete three-note
snapshot (one 2024 note, one 2023 note, one timestampless note) removes
exactly the 2024 note and keeps the others; the 2023 note is kept. -/
theorem handleConfirmDelete_exact_witness :
    (toDelete (.year 2024)
        [⟨"a", "x", some ⟨2024, 0, 20⟩⟩, ⟨"b", "y", some ⟨2023, 10, 5⟩⟩, ⟨"c", "z", none⟩] = [] →
       handleConfirmDelete (some "u") (some (.year 2024))
         [⟨"a", "x", some ⟨2024, 0, 20⟩⟩, ⟨"b", "y", some ⟨2023, 10, 5⟩⟩, ⟨"c", "z", none⟩]
         [⟨"a", "x", some ⟨2024, 0, 20⟩⟩, ⟨"b", "y", some ⟨2023, 10, 5⟩⟩, ⟨"c", "z", none⟩]
         = ([⟨"a", "x", some ⟨2024, 0, 20⟩⟩, ⟨"b", "y", some ⟨2023, 10, 5⟩⟩, ⟨"c", "z", none⟩],
            false)) ∧
    (toDelete (.year 2024)
        [⟨"a", "x", some ⟨2024, 0, 20⟩⟩, ⟨"b", "y", some ⟨2023, 10, 5⟩⟩, ⟨"c", "z", none⟩] ≠ [] →
       handleConfirmDelete (some "u") (some (.year 2024))
         [⟨"a", "x", some ⟨2024, 0, 20⟩⟩, ⟨"b", "y", some ⟨2023, 10, 5⟩⟩, ⟨"c", "z", none⟩]
         [⟨"a", "x", some ⟨2024, 0, 20⟩⟩, ⟨"b", "y", some ⟨2023, 10, 5⟩⟩, ⟨"c", "z", none⟩]
         = ([⟨"a", "x", some ⟨2024, 0, 20⟩⟩, ⟨"b", "y", some ⟨2023, 10, 5⟩⟩,
             ⟨"c", "z", none⟩].filter (fun n => !(selMatches (.year 2024) n)), true)) ∧
    (∀ n, n.timestamp = none → selMatches (.year 2024) n = false) ∧
    (∀ n ∈ [⟨"a", "x", some ⟨2024, 0, 20⟩⟩, ⟨"b", "y", some ⟨2023, 10, 5⟩⟩,
            (⟨"c", "z", none⟩ : Note)],
       selMatches (.year 2024) n = false →
       n ∈ (handleConfirmDelete (some "u") (some (.year 2024))
         [⟨"a", "x", some ⟨2024, 0, 20⟩⟩, ⟨"b", "y", some ⟨2023, 10, 5⟩⟩, ⟨"c", "z", none⟩]
         [⟨"a", "x", some ⟨2024, 0, 20⟩⟩, ⟨"b", "y", some ⟨2023, 10, 5⟩⟩,
          ⟨"c", "z", none⟩]).1) :=
  handleConfirmDelete_exact "u"
    [⟨"a", "x", some ⟨2024, 0, 20⟩⟩, ⟨"b", "y", some ⟨2023, 10, 5⟩⟩, ⟨"c", "z", none⟩]
    (.year 2024) (by decide) (Or.inl ⟨2024, rfl⟩)

/-! ### Helper lemmas: luminance -/

theorem gammaCorrect_zero : gammaCorrect 0 = 0 := by
  unfold gammaCorrect
  rw [if_pos (by norm_num : (0 : ℝ) ≤ 0.03928)]
  norm_num

theorem gammaCorrect_one : gammaCorrect 1 = 1 := by
  unfold gammaCorrect
  rw [if_neg (by norm_num)]
  have h : ((1 : ℝ) + 0.055) / 1.055 = 1 := by norm_num
  rw [h, Real.one_rpow]

theorem luminanceRGB_black : luminanceRGB 0 0 0 = 0 := by
  have h : ((0 : ℕ) : ℝ) / 255 = 0 := by norm_num
  unfold luminanceRGB
  rw [h, gammaCorrect_zero]
  norm_num

theorem luminanceRGB_white : luminanceRGB 255 255 255 = 1 := by
  have h : ((255 : ℕ) : ℝ) / 255 = 1 := by norm_num
  unfold luminanceRGB
  rw [h, gammaCorrect_one]
  norm_num

theorem textColorRGB_cases (r g b : Nat) :
    (textColorRGB r g b = "#000000" ↔ luminanceRGB r g b > 0.179) ∧
    (textColorRGB r g b = "#ffffff" ↔ ¬ luminanceRGB r g b > 0.179) := by
  unfold textColorRGB
  by_cases h : luminanceRGB r g b > 0.179
  · rw [if_pos h]
    exact ⟨⟨fun _ => h, fun _ => rfl⟩, ⟨fun he => absurd he (by decide), fun hn => absurd h hn⟩⟩
  · rw [if_neg h]
    exact ⟨⟨fun he => absurd he (by decide), fun hl => absurd hl h⟩, ⟨fun _ => h, fun _ => rfl⟩⟩

/-! ### Claim C9 -/

/-- Claim C9: the foreground picker returns pure black exactly when the
relative luminance of the decoded background — channels normalized to
[0,1], gamma-corrected piecewise with the linear segment below 0.03928
scaled by 1/12.92 and the 2.4-power curve otherwise, weighted
0.2126/0.7152/0.0722 — exceeds the fixed 0.179 threshold, and pure white
otherwise; in particular it maps "#000000" to white and "#ffffff" to
black. -/
theorem getTextColor_threshold :
    getTextColor "#000000" = some "#ffffff" ∧
    getTextColor "#ffffff" = some "#000000" ∧
    ∀ r g b : Nat, (textColorRGB r g b = "#000000" ↔ luminanceRGB r g b > 0.179) ∧
      (textColorRGB r g b = "#ffffff" ↔ ¬ luminanceRGB r g b > 0.179) := by
  refine ⟨?_, ?_, fun r g b => textColorRGB_cases r g b⟩
  · have h1 : getTextColor "#000000" = some (textColorRGB 0 0 0) := rfl
    have h2 : textColorRGB 0 0 0 = "#ffffff" := by
      unfold textColorRGB
      rw [if_neg (by rw [luminanceRGB_black]; norm_num)]
    rw [h1, h2]
  · have h1 : getTextColor "#ffffff" = some (textColorRGB 255 255 255) := rfl
    have h2 : textColorRGB 255 255 255 = "#000000" := by
      unfold textColorRGB
      rw [if_pos (by rw [luminanceRGB_white]; norm_num)]
    rw [h1, h2]

end LifeDiary
